import Mathlib

/-!
Verification of the nspyre-drivers repository's specification against a
shallow embedding of its Python sources.

Each driver operation is translated into a pure Lean function.  Device
interaction is made explicit: VISA/serial traffic becomes a trace of
events, device replies become parameters, mutable device state becomes
explicit state passing, Python exceptions become `Except`, and Python
numbers become `ℚ`/`ℤ`/`ℕ` (with `int()` truncation made explicit).
-/

namespace Drivers

/-- Python `int()` applied to a (rational) number: truncation toward zero. -/
def pyTrunc (q : ℚ) : ℤ := if 0 ≤ q then ⌊q⌋ else ⌈q⌉

theorem pyTrunc_le (q : ℚ) (hi : ℚ) (h : q ≤ hi) (hhi : 0 ≤ hi) :
    (pyTrunc q : ℚ) ≤ hi := by
  unfold pyTrunc
  split
  · exact le_trans (Int.floor_le q) h
  · have hq : q < 0 := lt_of_not_le (by assumption)
    have h0 : ⌈q⌉ ≤ (0 : ℤ) := Int.ceil_le.mpr (by exact_mod_cast le_of_lt hq)
    have : ((⌈q⌉ : ℤ) : ℚ) ≤ 0 := by exact_mod_cast h0
    exact le_trans this hhi

theorem le_pyTrunc (q : ℚ) (lo : ℚ) (h : lo ≤ q) (hlo : lo ≤ 0) :
    lo ≤ (pyTrunc q : ℚ) := by
  unfold pyTrunc
  split
  · have : (0 : ℚ) ≤ ⌊q⌋ := by exact_mod_cast Int.floor_nonneg.mpr (by assumption)
    exact le_trans hlo this
  · exact le_trans h (Int.le_ceil q)

/-! ## Thorlabs PFM450E piezo controller (`thorlabs/PFM450/PFM450_driver.py`)

`set_position` executes
`position = int(max(-self.POSITION_SCALE, min(self.POSITION_SCALE, position)))`
with `POSITION_SCALE = 32767`, then transmits the result.
`set_position_microns` computes
`raw_pos = int((microns / (max_range / 2)) * self.POSITION_SCALE)` and calls
`set_position(raw_pos)`, where `max_range` is `CLOSED_LOOP_RANGE = 450.0` in
closed-loop mode and `OPEN_LOOP_RANGE = 600.0` otherwise. -/

namespace PFM450

def POSITION_SCALE : ℚ := 32767

/-- The raw setpoint `set_position` transmits: clamp then `int()`. -/
def setPositionRaw (position : ℚ) : ℤ :=
  pyTrunc (max (-POSITION_SCALE) (min POSITION_SCALE position))

def CLOSED_LOOP_RANGE : ℚ := 450
def OPEN_LOOP_RANGE : ℚ := 600

/-- `max_range` as selected by the control mode in `set_position_microns`. -/
def maxRange (closedLoop : Bool) : ℚ :=
  if closedLoop then CLOSED_LOOP_RANGE else OPEN_LOOP_RANGE

/-- The raw setpoint transmitted by `set_position_microns`:
`raw_pos = int((microns / (max_range / 2)) * POSITION_SCALE)`, then
`set_position(raw_pos)`. -/
def setPositionMicronsRaw (closedLoop : Bool) (microns : ℚ) : ℤ :=
  setPositionRaw ((pyTrunc (microns / (maxRange closedLoop / 2) * POSITION_SCALE) : ℚ))

end PFM450

/-! ## Waveshare relay (`waveshare/relay.py`,
`waveshare/Modbus_POE_ETH_Relay_Code/modbus_rtu.py`)

`Relay._write(cmd)` computes `crc = pycrc.ModbusCRC(cmd)`, appends
`crc & 0xFF` then `crc >> 8`, and sends the bytearray.  `on`/`off` assert
`channel in [0..7]` and pass `[address, 0x05, 0, channel, 0xFF, 0]`
(resp. `[..., 0, 0]`).  The RTU script builds the same 8-byte frame in place
with `cmd[6] = crc & 0xFF`, `cmd[7] = crc >> 8`, `crc` over `cmd[0:6]`. -/

namespace Relay

/-- One shift round of the Modbus CRC-16 update. -/
def crcStep (c : ℕ) : ℕ := if c % 2 = 1 then (c / 2) ^^^ 0xA001 else c / 2

/-- Fold one message byte into the CRC: xor it in, then 8 shift rounds. -/
def crcByte (c b : ℕ) : ℕ := crcStep^[8] (c ^^^ b)

/-- Modelled from the spec: `pycrc.ModbusCRC` is an external dependency whose
source is not part of this repository; the spec calls the framing
"CRC-16 (Modbus)".  This is standard Modbus CRC-16 (init `0xFFFF`, reflected
polynomial `0xA001`, one pass per byte); it reproduces the CRC bytes
`0x3D, 0xCC` hard-coded in `Relay.read` for `[0x01, 0x01, 0, 0, 0, 0x08]`. -/
def ModbusCRC (data : List ℕ) : ℕ := data.foldl crcByte 0xFFFF

/-- Command bytes `Relay.on` builds for a channel. -/
def onCmd (addr ch : ℕ) : List ℕ := [addr, 0x05, 0, ch, 0xFF, 0]

/-- Command bytes `Relay.off` builds for a channel. -/
def offCmd (addr ch : ℕ) : List ℕ := [addr, 0x05, 0, ch, 0, 0]

/-- `Relay._write`: append `crc & 0xFF` then `crc >> 8` to the command and
send the result. -/
def writeFrame (cmd : List ℕ) : List ℕ :=
  cmd ++ [ModbusCRC cmd &&& 0xFF, ModbusCRC cmd >>> 8]

/-- `Relay.on`: assert the channel is one of 0–7 (`none` models the
`AssertionError`), then `_write` the on-command. -/
def onCh (addr ch : ℕ) : Option (List ℕ) :=
  if ch < 8 then some (writeFrame (onCmd addr ch)) else none

/-- `Relay.off`: assert the channel is one of 0–7, then `_write` the
off-command. -/
def offCh (addr ch : ℕ) : Option (List ℕ) :=
  if ch < 8 then some (writeFrame (offCmd addr ch)) else none

/-- The 8-byte frame the RTU script sends for relay `i` in its on-loop
(`turnOn = true`, byte 4 = `0xFF`) or off-loop (`turnOn = false`, byte 4 = 0). -/
def rtuFrame (i : ℕ) (turnOn : Bool) : List ℕ :=
  let cmd := [0x01, 0x05, 0, i, if turnOn then 0xFF else 0, 0]
  cmd ++ [ModbusCRC cmd &&& 0xFF, ModbusCRC cmd >>> 8]

theorem crcStep_lt {c : ℕ} (h : c < 2 ^ 16) : crcStep c < 2 ^ 16 := by
  unfold crcStep
  have hdiv : c / 2 < 2 ^ 16 := lt_of_le_of_lt (Nat.div_le_self c 2) h
  split
  · exact Nat.xor_lt_two_pow hdiv (by norm_num)
  · exact hdiv

theorem crcStep_iter_lt (n : ℕ) {c : ℕ} (h : c < 2 ^ 16) :
    crcStep^[n] c < 2 ^ 16 := by
  induction n generalizing c with
  | zero => exact h
  | succ k ih =>
    rw [Function.iterate_succ_apply]
    exact ih (crcStep_lt h)

theorem crcByte_lt {c b : ℕ} (hc : c < 2 ^ 16) (hb : b < 2 ^ 16) :
    crcByte c b < 2 ^ 16 :=
  crcStep_iter_lt 8 (Nat.xor_lt_two_pow hc hb)

theorem foldl_crcByte_lt (data : List ℕ) :
    ∀ acc : ℕ, acc < 2 ^ 16 → (∀ b ∈ data, b < 2 ^ 16) →
      data.foldl crcByte acc < 2 ^ 16 := by
  induction data with
  | nil => intro acc hacc _; simpa using hacc
  | cons x xs ih =>
    intro acc hacc hmem
    simp only [List.foldl_cons]
    exact ih _ (crcByte_lt hacc (hmem x (List.mem_cons_self x xs)))
      (fun b hb => hmem b (List.mem_cons_of_mem x hb))

theorem ModbusCRC_lt (data : List ℕ) (h : ∀ b ∈ data, b < 2 ^ 16) :
    ModbusCRC data < 2 ^ 16 :=
  foldl_crcByte_lt data 0xFFFF (by norm_num) h

end Relay

/-- A Python exception, by kind. -/
inductive PyErr
  | valueError
  | typeError
  | structError
  | timeoutErr
  | syntaxFault
  | execFault
  | visaErr
  deriving DecidableEq, Repr

namespace Visa

/-- One VISA I/O event performed by a driver call. -/
inductive Ev
  | write (s : String)
  | query (s : String)
  deriving DecidableEq, Repr

/-- The status registers a VISA device reports when queried. -/
structure Dev where
  esr : ℕ
  stb : ℕ
  qsr : ℕ
  deriving DecidableEq, Repr

end Visa

/-! ## Rigol DP832 (`rigol/dp832/dp832.py`)

`_send_cmd` writes the command and `*WAI`, queries `*ESR?`, `*STB?` and
`:STAT:QUES?`, then raises `RuntimeError` if `standard_event_reg & 32`
(syntax error) or `standard_event_reg & 16` (execution error).

`set_voltage(ch, val, confirm, timeout, delta)` sends `:SOUR{ch}:VOLT {val}`
via `_send_cmd`; with `confirm`, it sets `timeout = time.time() + timeout`,
measures once, and loops `while abs(val - actual) > delta`: sleep, raise
`TimeoutError` if `time.time() > timeout`, measure again.  `set_current` is
identical with `:SOUR{ch}:CURR {val}` and the current measurement. -/

namespace DP832

/-- The I/O trace of one `_send_cmd` call. -/
def sendCmdTrace (cmd : String) : List Visa.Ev :=
  [.write cmd, .write "*WAI", .query "*ESR?", .query "*STB?", .query ":STAT:QUES?"]

/-- `DP832._send_cmd`: the performed I/O and whether a `RuntimeError` was
raised, given the device's standard-event register. -/
def sendCmd (dev : Visa.Dev) (cmd : String) : List Visa.Ev × Except PyErr Unit :=
  (sendCmdTrace cmd,
    if dev.esr &&& 32 ≠ 0 then .error .syntaxFault
    else if dev.esr &&& 16 ≠ 0 then .error .execFault
    else .ok ())

/-- The confirmation polling loop shared by `set_voltage` and `set_current`.
`meas n` is the `n`-th measurement the loop takes and `t m` (for `m ≥ 1`) the
wall-clock time at the `m`-th timeout check (which happens after the `m`-th
sleep and just before the `m`-th re-measurement); `deadline` is the value of
`time.time() + timeout` computed on entry.  `fuel` bounds the number of
iterations modelled; `none` means the fuel ran out before the loop decided. -/
def confirmLoop (val delta deadline : ℚ) (meas t : ℕ → ℚ) :
    ℕ → ℕ → Option (Except PyErr Unit)
  | _, 0 => none
  | n, fuel + 1 =>
    if |val - meas n| ≤ delta then some (.ok ())
    else if deadline < t (n + 1) then some (.error .timeoutErr)
    else confirmLoop val delta deadline meas t (n + 1) fuel

/-- The wall-clock time at which the `n`-th measurement is taken: the 0-th
happens on entry at time `t0`; measurement `n+1` happens right after the
`(n+1)`-th timeout check, at time `t (n+1)`. -/
def measTime (t0 : ℚ) (t : ℕ → ℚ) : ℕ → ℚ
  | 0 => t0
  | n + 1 => t (n + 1)

/-- `DP832.set_voltage`.  The trace records the `_send_cmd` I/O; the
measurements consulted by the confirmation loop are `meas`. -/
def setVoltage (dev : Visa.Dev) (ch : ℕ) (val delta timeout t0 : ℚ)
    (confirm : Bool) (meas t : ℕ → ℚ) (fuel : ℕ) :
    List Visa.Ev × Option (Except PyErr Unit) :=
  match sendCmd dev s!":SOUR{ch}:VOLT {val}" with
  | (evs, .error e) => (evs, some (.error e))
  | (evs, .ok _) =>
    if confirm then (evs, confirmLoop val delta (t0 + timeout) meas t 0 fuel)
    else (evs, some (.ok ()))

/-- `DP832.set_current`. -/
def setCurrent (dev : Visa.Dev) (ch : ℕ) (val delta timeout t0 : ℚ)
    (confirm : Bool) (meas t : ℕ → ℚ) (fuel : ℕ) :
    List Visa.Ev × Option (Except PyErr Unit) :=
  match sendCmd dev s!":SOUR{ch}:CURR {val}" with
  | (evs, .error e) => (evs, some (.error e))
  | (evs, .ok _) =>
    if confirm then (evs, confirmLoop val delta (t0 + timeout) meas t 0 fuel)
    else (evs, some (.ok ()))

theorem confirmLoop_result (val delta d : ℚ) (meas t : ℕ → ℚ) :
    ∀ (fuel n : ℕ) (r : Except PyErr Unit),
      confirmLoop val delta d meas t n fuel = some r →
      r = .ok () ∨ r = .error .timeoutErr := by
  intro fuel
  induction fuel with
  | zero => intro n r h; simp [confirmLoop] at h
  | succ k ih =>
    intro n r h
    rw [confirmLoop] at h
    split at h
    · exact Or.inl (by simpa using (Option.some.inj h).symm)
    · split at h
      · exact Or.inr (by simpa using (Option.some.inj h).symm)
      · exact ih (n + 1) r h

theorem confirmLoop_isSome (val delta d : ℚ) (meas t : ℕ → ℚ) (N : ℕ)
    (hmono : ∀ i j : ℕ, i ≤ j → t i ≤ t j) (hN : d < t (N + 1)) :
    ∀ (fuel n : ℕ), N + 1 ≤ fuel + n → n ≤ N →
      (confirmLoop val delta d meas t n fuel).isSome := by
  intro fuel
  induction fuel with
  | zero => intro n hfuel hn; omega
  | succ k ih =>
    intro n hfuel hn
    rw [confirmLoop]
    split
    · simp
    · split
      · simp
      · have hle : t (n + 1) ≤ d := le_of_not_lt (by assumption)
        have hn1 : n + 1 ≤ N := by
          by_contra hc
          have : N + 1 ≤ n + 1 := by omega
          exact absurd (lt_of_lt_of_le hN (hmono (N + 1) (n + 1) this)) (not_lt.mpr hle)
        exact ih (n + 1) (by omega) hn1

theorem confirmLoop_ok_iff (val delta d : ℚ) (meas t : ℕ → ℚ) (N : ℕ)
    (hmono : ∀ i j : ℕ, i ≤ j → t i ≤ t j) (hN : d < t (N + 1)) :
    ∀ (fuel n : ℕ), N + 1 ≤ fuel + n → n ≤ N →
      (confirmLoop val delta d meas t n fuel = some (.ok ()) ↔
        ∃ k, |val - meas (n + k)| ≤ delta ∧
          ∀ m, n + 1 ≤ m → m ≤ n + k → t m ≤ d) := by
  intro fuel
  induction fuel with
  | zero => intro n hfuel hn; omega
  | succ kf ih =>
    intro n hfuel hn
    rw [confirmLoop]
    by_cases h1 : |val - meas n| ≤ delta
    · rw [if_pos h1]
      constructor
      · intro _
        exact ⟨0, by simpa using h1, fun m hm1 hm2 => absurd (le_trans hm1 hm2) (by omega)⟩
      · intro _; rfl
    · rw [if_neg h1]
      by_cases h2 : d < t (n + 1)
      · rw [if_pos h2]
        constructor
        · intro h; exact absurd (Option.some.inj h) (by simp)
        · rintro ⟨k, hk, hall⟩
          have hk0 : k ≠ 0 := by
            intro hk0
            exact h1 (by simpa [hk0] using hk)
          have := hall (n + 1) (le_refl _) (by omega)
          exact absurd this (not_le.mpr h2)
      · rw [if_neg h2]
        have hle : t (n + 1) ≤ d := le_of_not_lt h2
        have hn1 : n + 1 ≤ N := by
          by_contra hc
          have : N + 1 ≤ n + 1 := by omega
          exact absurd (lt_of_lt_of_le hN (hmono (N + 1) (n + 1) this)) (not_lt.mpr hle)
        rw [ih (n + 1) (by omega) hn1]
        constructor
        · rintro ⟨k, hk, hall⟩
          refine ⟨k + 1, by rw [show n + (k + 1) = n + 1 + k by omega]; exact hk, ?_⟩
          intro m hm1 hm2
          rcases Nat.eq_or_lt_of_le hm1 with heq | hlt
          · simpa [← heq] using hle
          · exact hall m (by omega) (by omega)
        · rintro ⟨k, hk, hall⟩
          have hk0 : k ≠ 0 := by
            intro hk0
            exact h1 (by simpa [hk0] using hk)
          refine ⟨k - 1, by rw [show n + 1 + (k - 1) = n + k by omega]; exact hk, ?_⟩
          intro m hm1 hm2
          exact hall m (by omega) (by omega)

/-- The run of the confirmation loop from its entry state: it terminates with
a decision, succeeding exactly when some measurement is within tolerance and
taken no later than the deadline, and raising `TimeoutError` otherwise. -/
theorem confirmLoop_run (val delta timeout t0 : ℚ) (meas t : ℕ → ℚ) (N fuel : ℕ)
    (hmono : ∀ i j : ℕ, i ≤ j → t i ≤ t j) (ht0 : 0 ≤ timeout)
    (hN : t0 + timeout < t (N + 1)) (hfuel : N + 1 ≤ fuel) :
    ∃ r, confirmLoop val delta (t0 + timeout) meas t 0 fuel = some r ∧
      (r = .ok () ↔
        ∃ n, |val - meas n| ≤ delta ∧ measTime t0 t n ≤ t0 + timeout) ∧
      (r ≠ .ok () → r = .error .timeoutErr) := by
  have hsome := confirmLoop_isSome val delta (t0 + timeout) meas t N hmono hN fuel 0
    (by omega) (Nat.zero_le N)
  obtain ⟨r, hr⟩ := Option.isSome_iff_exists.mp hsome
  refine ⟨r, hr, ?_, ?_⟩
  · have hiff := confirmLoop_ok_iff val delta (t0 + timeout) meas t N hmono hN fuel 0
      (by omega) (Nat.zero_le N)
    rw [hr] at hiff
    constructor
    · intro hok
      subst hok
      obtain ⟨k, hk, hall⟩ := hiff.mp rfl
      refine ⟨k, by simpa using hk, ?_⟩
      cases k with
      | zero => simp only [measTime]; linarith
      | succ k => simpa [measTime] using hall (k + 1) (by omega) (by omega)
    · rintro ⟨n, hn, htn⟩
      refine Option.some.inj (hiff.mpr ⟨n, by simpa using hn, ?_⟩)
      intro m hm1 hm2
      cases n with
      | zero => omega
      | succ n =>
        exact le_trans (hmono m (n + 1) (by omega)) (by simpa [measTime] using htn)
  · intro hne
    rcases confirmLoop_result val delta (t0 + timeout) meas t fuel 0 r hr with h | h
    · exact absurd h hne
    · exact h

end DP832

/-! ## Rigol DS1000Z (`rigol/ds1054z/ds1000z.py`)

`_DS1000Z._write` writes the command and `*WAI`, queries `*ESR?` and `*STB?`
(the `:STAT:QUES?` query is commented out), and raises `RuntimeError` on
`standard_event_reg & 32` or `& 16`, like `DP832._send_cmd`. -/

namespace DS1000Z

/-- `_DS1000Z._write`. -/
def writeCmd (dev : Visa.Dev) (cmd : String) : List Visa.Ev × Except PyErr Unit :=
  ([.write cmd, .write "*WAI", .query "*ESR?", .query "*STB?"],
    if dev.esr &&& 32 ≠ 0 then .error .syntaxFault
    else if dev.esr &&& 16 ≠ 0 then .error .execFault
    else .ok ())

end DS1000Z

/-! ## Thorlabs PM100D (`thorlabs/pm100d/pm100d.py`)

All setters are bare `self.device.write(...)` calls; no completion wait and
no status-register check anywhere in the class. -/

namespace PM100D

/-- `PM100D.set_correction_wavelength`: a single write, never raises. -/
def setCorrectionWavelength (wavelength : ℚ) : List Visa.Ev × Except PyErr Unit :=
  ([.write s!"SENSE:CORRECTION:WAVELENGTH {wavelength}"], .ok ())

end PM100D

/-! ## Thorlabs CLD1010 (`thorlabs/cld1010/cld1010.py`)

Commands are bare `self.laser.write(...)` calls (no `_send_cmd`, no status
checks).  The device state visible to the driver: the laser-diode output state
(`OUTP1:STAT?`, an integer), the reply string of the TEC state query
(`OUTP2:STAT?`, returned raw), and the current-limit value.

`set_max_current(value)`:
- raises `ValueError` if `value > self.max_diode_current`, before any write;
- `laser_status = get_ld_state()`; if lasing, `off()` (writes `OUTP1:STAT 0`);
- writes `SOUR:CURR:LIM:AMPL {value:.5f}`;
- if `laser_status`, `on()`: `on` checks `if self.get_tec_state():`, a Python
  truthiness test on the raw reply string, and writes `OUTP1:STAT 1` when the
  reply is non-empty (otherwise it just returns an error string). -/

namespace CLD1010

/-- `CLD1010.set_ld_state`: a single bare write, never raises and never
queries a status register. -/
def setLdState (value : ℕ) : List Visa.Ev × Except PyErr Unit :=
  ([.write s!"OUTP1:STAT {value}"], .ok ())

/-- Device state visible to the CLD1010 driver. -/
structure St where
  ld : Bool
  tecReply : String
  limit : ℚ
  deriving DecidableEq, Repr

/-- The writes `set_max_current` can issue, in order. -/
inductive Cmd
  | ldOff
  | ldOn
  | writeLimit (v : ℚ)
  deriving DecidableEq, Repr

/-- `CLD1010.get_ld_state`: query `OUTP1:STAT?` and convert to a boolean. -/
def getLdState (st : St) : Bool := st.ld

/-- `CLD1010.off` = `set_ld_state(0)`. -/
def offLd (st : St) : List Cmd × St := ([.ldOff], { st with ld := false })

/-- `CLD1010.on`: writes `OUTP1:STAT 1` only when the raw `OUTP2:STAT?` reply
is truthy (a non-empty string); otherwise returns an error string and leaves
the state alone. -/
def onLd (st : St) : List Cmd × St :=
  if st.tecReply = "" then ([], st) else ([.ldOn], { st with ld := true })

/-- `CLD1010.set_max_current`: the writes issued and the final device state
(or the `ValueError`). -/
def setMaxCurrent (maxDiode : ℚ) (st : St) (value : ℚ) :
    List Cmd × Except PyErr St :=
  if maxDiode < value then ([], .error .valueError)
  else
    let p1 : List Cmd × St := if getLdState st then offLd st else ([], st)
    let st2 : St := { p1.2 with limit := value }
    let tr2 : List Cmd := p1.1 ++ [Cmd.writeLimit value]
    if getLdState st then
      let p3 := onLd st2
      (tr2 ++ p3.1, .ok p3.2)
    else
      (tr2, .ok st2)

end CLD1010

/-! ## Context-manager exits

`DP832.__exit__` (likewise PM100D, DS1000Z, Ellx, Relay) is `self.close()`.
`CLD1010.__exit__` is `self.off()` then `self.close()`, with no try/finally:
an exception in `off()` propagates and `close()` is never reached.  (Python's
`with` statement guarantees `__exit__` itself runs even when the block body
raises.) -/

namespace CtxExit

/-- Run the calls of an `__exit__` body in order: each named call either
returns or raises; a raise aborts the remaining calls and propagates.  The
first component lists the calls that were started. -/
def runCalls : List (String × Except PyErr Unit) → List String × Except PyErr Unit
  | [] => ([], .ok ())
  | (name, act) :: rest =>
    match act with
    | .error e => ([name], .error e)
    | .ok _ =>
      let p := runCalls rest
      (name :: p.1, p.2)

/-- `CLD1010.__exit__`: `off()` then `close()`, with the given outcomes. -/
def cld1010Exit (offR closeR : Except PyErr Unit) : List String × Except PyErr Unit :=
  runCalls [("off", offR), ("close", closeR)]

/-- `DP832.__exit__`: just `close()`. -/
def dp832Exit (closeR : Except PyErr Unit) : List String × Except PyErr Unit :=
  runCalls [("close", closeR)]

end CtxExit

/-! ## Thorlabs Elliptec (`thorlabs/ellx/ellx.py`, `thorlabs/ellx/ell14.py`,
`thorlabs/ell14/ellx.py`)

The commands dict maps a key to `('command', n_write, 'reply', n_read)`.
`_write(key, val_pulses, read)` returns `(None, None)` without touching the
serial port when the key is unknown.  Otherwise it builds the byte string:
the copy in `thorlabs/ellx/ellx.py` appends `val_pulses` only when
`isinstance(val_pulses, (int, float))` holds (in which case the
`str + number` concatenation would actually raise `TypeError`), while the
copy in `thorlabs/ell14/ellx.py` tests Python truthiness `if val_pulses:`.
With `read=True` it flushes the input, writes the bytes, then reads lines:
lines whose first three bytes are `address + 'GS'` are skipped, the first
line starting with `address + reply` returns the zero-padded payload
`(8 - n_read)*'0' + line[3:n_read+3]`, and any other line (including the
empty line a serial timeout produces) ends the loop with value `None`.

`Ell14.degree_to_pulses` (`thorlabs/ellx/ell14.py`) returns
`struct.pack('>l', int(val_deg*rev_in_pulses/360)).hex().upper()` — an
8-hex-digit string — or `None`; `Ell14.write` passes that to the inherited
`_write`.  The numeric expression is modelled in exact rational arithmetic. -/

namespace Ellx

/-- One entry of the commands dict. -/
structure CmdSpec where
  cmd : String
  nWrite : ℕ
  reply : String
  nRead : ℕ
  deriving DecidableEq, Repr

/-- `Ellx.default_commands`. -/
def defaultCommands : List (String × CmdSpec) :=
  [("get_position", ⟨"gp", 0, "PO", 8⟩),
   ("get_home_offset", ⟨"go", 0, "HO", 8⟩),
   ("get_jogstep_size", ⟨"gj", 0, "GJ", 8⟩),
   ("move_to_home_cw", ⟨"ho0", 0, "PO", 8⟩),
   ("move_to_home_ccw", ⟨"ho1", 0, "PO", 8⟩),
   ("move_absolute", ⟨"ma", 8, "PO", 8⟩),
   ("move_relative", ⟨"mr", 8, "PO", 8⟩),
   ("move_forward", ⟨"fw", 0, "PO", 8⟩),
   ("move_backward", ⟨"bw", 0, "PO", 8⟩),
   ("set_jogstep_size", ⟨"sj", 8, "GJ", 8⟩)]

/-- `key in self.commands.keys()` / `self.commands[key]`. -/
def lookupCmd (cs : List (String × CmdSpec)) (k : String) : Option CmdSpec :=
  (cs.find? (fun p => p.1 == k)).map (fun p => p.2)

/-- A Python value passed as `val_pulses`. -/
inductive PyVal
  | noneV
  | numV (q : ℚ)
  | strV (s : String)
  deriving DecidableEq, Repr

/-- Byte-string construction of `_write` in `thorlabs/ellx/ellx.py`:
`isinstance(val_pulses, (int, float))` selects the value branch, where
`self.address + command + val_pulses` concatenates `str` with a number and
raises `TypeError`; every other value — `None`, but also the hex string
`Ell14.degree_to_pulses` produces — falls through to the bare
`address + command`. -/
def buildBytesIsinstance (addr cmd : String) (v : PyVal) : Except PyErr String :=
  match v with
  | .numV _ => .error .typeError
  | _ => .ok (addr ++ cmd)

/-- Byte-string construction of `_write` in `thorlabs/ell14/ellx.py`
(`if val_pulses:`): append the value when it is truthy. -/
def buildBytesTruthy (addr cmd : String) (v : PyVal) : Except PyErr String :=
  match v with
  | .noneV => .ok (addr ++ cmd)
  | .numV q => if q = 0 then .ok (addr ++ cmd) else .error .typeError
  | .strV s => if s = "" then .ok (addr ++ cmd) else .ok (addr ++ cmd ++ s)

/-- The zero-padded hex payload extracted from a matching reply line:
`(8 - n_read)*'0' + line[3:n_read+3]`. -/
def payload (nRead : ℕ) (line : String) : String :=
  String.mk (List.replicate (8 - nRead) '0') ++ (line.drop 3).take nRead

/-- The reply-reading loop of `_write` (identical in both copies).  `lines`
are the successive `readline` results; the returned number counts the lines
consumed.  A line starting with `address + 'GS'` is skipped, one starting
with `address + reply` returns its payload, anything else (also the empty
line a read timeout yields, modelled by the list running out) ends the loop
with `none`. -/
def readReply (addr reply : String) (nRead : ℕ) : List String → ℕ × Option String
  | [] => (0, none)
  | l :: ls =>
    if l.take 3 = addr ++ reply then (1, some (payload nRead l))
    else if l.take 3 = addr ++ "GS" then
      ((readReply addr reply nRead ls).1 + 1, (readReply addr reply nRead ls).2)
    else (1, none)

/-- One serial-port interaction. -/
inductive SerEv
  | flushInput
  | write (s : String)
  | readLine
  deriving DecidableEq, Repr

/-- `Ellx._write` of `thorlabs/ellx/ellx.py`: the serial I/O performed and
the returned `(byte_string, val_pulses_hex)` pair.  An unknown key returns
`(None, None)` with no serial I/O. -/
def ellxWrite (cs : List (String × CmdSpec)) (addr key : String) (v : PyVal)
    (rd : Bool) (lines : List String) :
    Except PyErr (List SerEv × Option String × Option String) :=
  match lookupCmd cs key with
  | none => .ok ([], none, none)
  | some c =>
    match buildBytesIsinstance addr c.cmd v with
    | .error e => .error e
    | .ok bs =>
      if rd then
        .ok ([SerEv.flushInput, SerEv.write bs] ++
              List.replicate (readReply addr c.reply c.nRead lines).1 SerEv.readLine,
          some bs, (readReply addr c.reply c.nRead lines).2)
      else
        .ok ([SerEv.write bs], some bs, none)

/-- Uppercase hex digit. -/
def hexDigit (n : ℕ) : Char :=
  if n < 10 then Char.ofNat (48 + n) else Char.ofNat (55 + n)

/-- The 8-hex-digit big-endian two's-complement encoding of a 32-bit value,
as `struct.pack('>l', z).hex().upper()` produces it. -/
def toHex8 (z : ℤ) : String :=
  String.mk (([7, 6, 5, 4, 3, 2, 1, 0] : List ℕ).map
    fun i => hexDigit ((z % (2 ^ 32 : ℤ)).toNat / 16 ^ i % 16))

/-- `struct.pack('>l', z)`: raises `struct.error` outside the int32 range. -/
def packInt32 (z : ℤ) : Except PyErr String :=
  if -(2 ^ 31) ≤ z ∧ z < 2 ^ 31 then .ok (toHex8 z) else .error .structError

/-- `Ell14.degree_to_pulses` (`thorlabs/ellx/ell14.py`) on a non-`None`
degree value, in exact rational arithmetic:
`struct.pack('>l', int(val_deg*self.rev_in_pulses/360)).hex().upper()`. -/
def degreeToPulses (rev : ℕ) (valDeg : ℚ) : Except PyErr String :=
  packInt32 (pyTrunc (valDeg * rev / 360))

/-- The `_write` call made by `Ell14.write` of the `thorlabs/ellx` package:
`self._write(key, self.degree_to_pulses(val_deg), read)`, with `_write`
inherited from `thorlabs/ellx/ellx.py`. -/
def ell14Write (rev : ℕ) (cs : List (String × CmdSpec)) (addr key : String)
    (valDeg : Option ℚ) (rd : Bool) (lines : List String) :
    Except PyErr (List SerEv × Option String × Option String) :=
  match valDeg with
  | none => ellxWrite cs addr key .noneV rd lines
  | some d =>
    match degreeToPulses rev d with
    | .error e => .error e
    | .ok s => ellxWrite cs addr key (.strV s) rd lines

end Ellx

end Drivers

/-- C9: the raw setpoint sent by `PFM450E.set_position` always lies in
[-32767, +32767], for every input; `set_position_microns` transmits through
`set_position`, so its transmitted setpoint obeys the same bound for every
micron request and either control mode. -/
theorem PFM450_setPosition_clamped (position microns : ℚ) (closedLoop : Bool) :
    (-32767 ≤ Drivers.PFM450.setPositionRaw position ∧
      Drivers.PFM450.setPositionRaw position ≤ 32767) ∧
    (-32767 ≤ Drivers.PFM450.setPositionMicronsRaw closedLoop microns ∧
      Drivers.PFM450.setPositionMicronsRaw closedLoop microns ≤ 32767) := by
  have key2 : ∀ q : ℚ, -32767 ≤ Drivers.PFM450.setPositionRaw q ∧
      Drivers.PFM450.setPositionRaw q ≤ 32767 := by
    intro q
    unfold Drivers.PFM450.setPositionRaw Drivers.PFM450.POSITION_SCALE
    constructor
    · have h1 : (-32767 : ℚ) ≤ max (-(32767 : ℚ)) (min 32767 q) := le_max_left _ _
      have := Drivers.le_pyTrunc _ _ h1 (by norm_num)
      exact_mod_cast this
    · have h1 : max (-(32767 : ℚ)) (min 32767 q) ≤ 32767 := by
        apply max_le
        · norm_num
        · exact min_le_left _ _
      have := Drivers.pyTrunc_le _ _ h1 (by norm_num)
      exact_mod_cast this
  exact ⟨key2 position, key2 _⟩

namespace Drivers.Relay

theorem and_255_eq_mod (n : ℕ) : n &&& 255 = n % 256 := by
  have h := Nat.and_pow_two_sub_one_eq_mod n 8
  norm_num at h
  exact h

theorem shift_8_eq_div (n : ℕ) : n >>> 8 = n / 256 := by
  have h := Nat.shiftRight_eq_div_pow n 8
  norm_num at h
  exact h

theorem bytes_lt_of_cmd {addr ch : ℕ} (haddr : addr < 256) (hch : ch < 8) :
    (∀ b ∈ onCmd addr ch, b < 2 ^ 16) ∧ ∀ b ∈ offCmd addr ch, b < 2 ^ 16 := by
  constructor <;>
    · intro b hb
      simp only [onCmd, offCmd, List.mem_cons, List.not_mem_nil, or_false] at hb
      rcases hb with rfl | rfl | rfl | rfl | rfl | rfl <;> omega

end Drivers.Relay

/-- C6: every frame `Relay.on` (resp. `Relay.off`) sends is the 6-byte command
`[address, 0x05, 0, channel, value, 0]` (value `0xFF` for on, `0` for off)
followed by exactly two CRC bytes: the Modbus CRC-16 of those 6 bytes, low
byte first (`crc % 256`) then high byte (`crc / 256`, a genuine byte split
since the CRC is below 2^16 and high*256 + low reconstructs it); the RTU
script's frames have the identical framing. -/
theorem Relay_on_off_frame_crc (addr ch : ℕ) (haddr : addr < 256) (hch : ch < 8) :
    (Drivers.Relay.onCh addr ch =
      some (Drivers.Relay.onCmd addr ch ++
        [Drivers.Relay.ModbusCRC (Drivers.Relay.onCmd addr ch) % 256,
         Drivers.Relay.ModbusCRC (Drivers.Relay.onCmd addr ch) / 256])) ∧
    (Drivers.Relay.offCh addr ch =
      some (Drivers.Relay.offCmd addr ch ++
        [Drivers.Relay.ModbusCRC (Drivers.Relay.offCmd addr ch) % 256,
         Drivers.Relay.ModbusCRC (Drivers.Relay.offCmd addr ch) / 256])) ∧
    (∀ cmd : List ℕ, cmd = Drivers.Relay.onCmd addr ch ∨ cmd = Drivers.Relay.offCmd addr ch →
      Drivers.Relay.ModbusCRC cmd < 2 ^ 16 ∧
      Drivers.Relay.ModbusCRC cmd % 256 < 256 ∧
      Drivers.Relay.ModbusCRC cmd / 256 < 256 ∧
      Drivers.Relay.ModbusCRC cmd / 256 * 256 + Drivers.Relay.ModbusCRC cmd % 256 =
        Drivers.Relay.ModbusCRC cmd) ∧
    Drivers.Relay.rtuFrame ch true = Drivers.Relay.writeFrame (Drivers.Relay.onCmd 1 ch) ∧
    Drivers.Relay.rtuFrame ch false = Drivers.Relay.writeFrame (Drivers.Relay.offCmd 1 ch) := by
  have hsplit : ∀ n : ℕ, n &&& 255 = n % 256 ∧ n >>> 8 = n / 256 := fun n =>
    ⟨Drivers.Relay.and_255_eq_mod n, Drivers.Relay.shift_8_eq_div n⟩
  refine ⟨?_, ?_, ?_, ?_, ?_⟩
  · simp only [Drivers.Relay.onCh, if_pos hch, Drivers.Relay.writeFrame,
      (hsplit _).1, (hsplit _).2]
  · simp only [Drivers.Relay.offCh, if_pos hch, Drivers.Relay.writeFrame,
      (hsplit _).1, (hsplit _).2]
  · intro cmd hcmd
    have hb : ∀ b ∈ cmd, b < 2 ^ 16 := by
      rcases hcmd with rfl | rfl
      · exact (Drivers.Relay.bytes_lt_of_cmd haddr hch).1
      · exact (Drivers.Relay.bytes_lt_of_cmd haddr hch).2
    have hlt := Drivers.Relay.ModbusCRC_lt cmd hb
    refine ⟨hlt, Nat.mod_lt _ (by norm_num), ?_, ?_⟩
    · exact Nat.div_lt_of_lt_mul (by calc Drivers.Relay.ModbusCRC cmd < 2 ^ 16 := hlt
        _ = 256 * 256 := by norm_num)
    · omega
  · rfl
  · rfl

set_option maxRecDepth 100000 in
/-- Witness for C6 at address 1, channel 3, including a concrete evaluation of
the CRC bytes. -/
theorem Relay_on_off_frame_crc_witness :
    ((1 : ℕ) < 256 ∧ (3 : ℕ) < 8) ∧
    (Drivers.Relay.onCh 1 3 =
      some (Drivers.Relay.onCmd 1 3 ++
        [Drivers.Relay.ModbusCRC (Drivers.Relay.onCmd 1 3) % 256,
         Drivers.Relay.ModbusCRC (Drivers.Relay.onCmd 1 3) / 256]) ∧
      Drivers.Relay.offCh 1 3 =
      some (Drivers.Relay.offCmd 1 3 ++
        [Drivers.Relay.ModbusCRC (Drivers.Relay.offCmd 1 3) % 256,
         Drivers.Relay.ModbusCRC (Drivers.Relay.offCmd 1 3) / 256])) ∧
    Drivers.Relay.offCh 1 3 = some [1, 5, 0, 3, 0, 0, 61, 202] :=
  ⟨⟨by norm_num, by norm_num⟩,
    ⟨(Relay_on_off_frame_crc 1 3 (by norm_num) (by norm_num)).1,
     (Relay_on_off_frame_crc 1 3 (by norm_num) (by norm_num)).2.1⟩,
    by decide⟩

set_option maxRecDepth 100000 in
/-- Cross-check of the spec-modelled Modbus CRC-16 against the CRC bytes
`0x3D, 0xCC` hard-coded in `Relay.read` for the query `[1, 1, 0, 0, 0, 8]`. -/
theorem ModbusCRC_matches_hardcoded_read_frame :
    Drivers.Relay.ModbusCRC [1, 1, 0, 0, 0, 8] &&& 0xFF = 0x3D ∧
    Drivers.Relay.ModbusCRC [1, 1, 0, 0, 0, 8] >>> 8 = 0xCC := by decide

/-- C1: with `confirm=True`, `DP832.set_voltage` (resp. `set_current`) first
performs the setpoint write (its trace is the `_send_cmd` I/O, beginning with
the setpoint command), then repeatedly measures the channel voltage (resp.
current); the call terminates and returns normally if and only if some
measurement is within the caller-supplied `delta` of the setpoint `val` and
is taken no later than `time.time() + timeout` (with `timeout` the
caller-supplied parameter); in every other case it raises `TimeoutError`. -/
theorem DP832_set_confirm_converges (dev : Drivers.Visa.Dev) (ch : ℕ)
    (val delta timeout t0 : ℚ) (measV measC t : ℕ → ℚ) (N fuel : ℕ)
    (hesr32 : dev.esr &&& 32 = 0) (hesr16 : dev.esr &&& 16 = 0)
    (hmono : ∀ i j : ℕ, i ≤ j → t i ≤ t j) (ht0 : 0 ≤ timeout)
    (hN : t0 + timeout < t (N + 1)) (hfuel : N + 1 ≤ fuel) :
    (∃ r, Drivers.DP832.setVoltage dev ch val delta timeout t0 true measV t fuel =
        (Drivers.DP832.sendCmdTrace s!":SOUR{ch}:VOLT {val}", some r) ∧
      (r = .ok () ↔ ∃ n, |val - measV n| ≤ delta ∧
        Drivers.DP832.measTime t0 t n ≤ t0 + timeout) ∧
      (r ≠ .ok () → r = .error Drivers.PyErr.timeoutErr)) ∧
    (∃ r, Drivers.DP832.setCurrent dev ch val delta timeout t0 true measC t fuel =
        (Drivers.DP832.sendCmdTrace s!":SOUR{ch}:CURR {val}", some r) ∧
      (r = .ok () ↔ ∃ n, |val - measC n| ≤ delta ∧
        Drivers.DP832.measTime t0 t n ≤ t0 + timeout) ∧
      (r ≠ .ok () → r = .error Drivers.PyErr.timeoutErr)) := by
  have hsend : ∀ cmd : String, Drivers.DP832.sendCmd dev cmd =
      (Drivers.DP832.sendCmdTrace cmd, Except.ok ()) := by
    intro cmd
    simp [Drivers.DP832.sendCmd, hesr32, hesr16]
  constructor
  · obtain ⟨r, hr, hiff, hto⟩ :=
      Drivers.DP832.confirmLoop_run val delta timeout t0 measV t N fuel
        hmono ht0 hN hfuel
    refine ⟨r, ?_, hiff, hto⟩
    rw [Drivers.DP832.setVoltage, hsend]
    simp [hr]
  · obtain ⟨r, hr, hiff, hto⟩ :=
      Drivers.DP832.confirmLoop_run val delta timeout t0 measC t N fuel
        hmono ht0 hN hfuel
    refine ⟨r, ?_, hiff, hto⟩
    rw [Drivers.DP832.setCurrent, hsend]
    simp [hr]

/-- Witness for C1: device with clear status registers, channel 1, setpoint 1,
tolerance 1/10, timeout 1 starting at time 0, measurements constantly 1, the
`n`-th timeout check at time `n`. -/
theorem DP832_set_confirm_converges_witness :
    (((⟨0, 0, 0⟩ : Drivers.Visa.Dev).esr &&& 32 = 0) ∧
     ((⟨0, 0, 0⟩ : Drivers.Visa.Dev).esr &&& 16 = 0) ∧
     (∀ i j : ℕ, i ≤ j → (fun n : ℕ => (n : ℚ)) i ≤ (fun n : ℕ => (n : ℚ)) j) ∧
     (0 : ℚ) ≤ 1 ∧
     (0 : ℚ) + 1 < (fun n : ℕ => (n : ℚ)) (1 + 1) ∧
     1 + 1 ≤ 2) ∧
    ((∃ r, Drivers.DP832.setVoltage ⟨0, 0, 0⟩ 1 1 (1/10) 1 0 true
          (fun _ : ℕ => (1 : ℚ)) (fun n : ℕ => (n : ℚ)) 2 =
        (Drivers.DP832.sendCmdTrace s!":SOUR{(1 : ℕ)}:VOLT {(1 : ℚ)}", some r) ∧
      (r = .ok () ↔ ∃ n, |(1 : ℚ) - (fun _ : ℕ => (1 : ℚ)) n| ≤ 1/10 ∧
        Drivers.DP832.measTime 0 (fun n : ℕ => (n : ℚ)) n ≤ 0 + 1) ∧
      (r ≠ .ok () → r = .error Drivers.PyErr.timeoutErr)) ∧
     (∃ r, Drivers.DP832.setCurrent ⟨0, 0, 0⟩ 1 1 (1/10) 1 0 true
          (fun _ : ℕ => (1 : ℚ)) (fun n : ℕ => (n : ℚ)) 2 =
        (Drivers.DP832.sendCmdTrace s!":SOUR{(1 : ℕ)}:CURR {(1 : ℚ)}", some r) ∧
      (r = .ok () ↔ ∃ n, |(1 : ℚ) - (fun _ : ℕ => (1 : ℚ)) n| ≤ 1/10 ∧
        Drivers.DP832.measTime 0 (fun n : ℕ => (n : ℚ)) n ≤ 0 + 1) ∧
      (r ≠ .ok () → r = .error Drivers.PyErr.timeoutErr))) :=
  ⟨⟨by decide, by decide,
    fun i j h => by simpa using (Nat.cast_le (α := ℚ)).mpr h,
    by norm_num, by push_cast; norm_num, by norm_num⟩,
   DP832_set_confirm_converges ⟨0, 0, 0⟩ 1 1 (1/10) 1 0
     (fun _ : ℕ => (1 : ℚ)) (fun _ : ℕ => (1 : ℚ)) (fun n : ℕ => (n : ℚ)) 1 2
     (by decide) (by decide)
     (fun i j h => by simpa using (Nat.cast_le (α := ℚ)).mpr h)
     (by norm_num) (by push_cast; norm_num) (by norm_num)⟩

/-- C2 counterexample: `CLD1010.set_ld_state` — cited by the claim as a
command-sending operation of one of the named SCPI-style drivers — performs
exactly one bare write: it sends no `*WAI`, queries no status register, and
returns without raising, regardless of any fault the device's standard event
register might report.  This refutes the claim that every command-sending
operation of DP832/CLD1010/PM100D/DS1000Z waits, reads the status registers,
and raises on a fault. -/
theorem CLD1010_setLdState_no_status_check :
    Drivers.CLD1010.setLdState 1 =
      ([Drivers.Visa.Ev.write "OUTP1:STAT 1"], Except.ok ()) := by
  rfl

/-- C2 amended: `DP832._send_cmd` writes the command and `*WAI`, queries the
standard-event, status-byte and questionable registers, and raises a
`RuntimeError` iff the standard event register has bit 32 (syntax error) or
bit 16 (execution error) set; `DS1000Z._write` does the same without the
questionable-register query; the command operations of CLD1010 and PM100D are
bare writes that never wait, never read a status register and never raise. -/
theorem visa_send_cmd_status_checks :
    (∀ (dev : Drivers.Visa.Dev) (cmd : String),
      (Drivers.DP832.sendCmd dev cmd).1 =
        [.write cmd, .write "*WAI", .query "*ESR?", .query "*STB?",
         .query ":STAT:QUES?"] ∧
      ((Drivers.DP832.sendCmd dev cmd).2 = .ok () ↔
        dev.esr &&& 32 = 0 ∧ dev.esr &&& 16 = 0) ∧
      ((Drivers.DP832.sendCmd dev cmd).2 = .error Drivers.PyErr.syntaxFault ↔
        dev.esr &&& 32 ≠ 0) ∧
      ((Drivers.DP832.sendCmd dev cmd).2 = .error Drivers.PyErr.execFault ↔
        dev.esr &&& 32 = 0 ∧ dev.esr &&& 16 ≠ 0)) ∧
    (∀ (dev : Drivers.Visa.Dev) (cmd : String),
      (Drivers.DS1000Z.writeCmd dev cmd).1 =
        [.write cmd, .write "*WAI", .query "*ESR?", .query "*STB?"] ∧
      ((Drivers.DS1000Z.writeCmd dev cmd).2 = .ok () ↔
        dev.esr &&& 32 = 0 ∧ dev.esr &&& 16 = 0)) ∧
    (∀ v : ℕ, Drivers.CLD1010.setLdState v =
      ([Drivers.Visa.Ev.write s!"OUTP1:STAT {v}"], Except.ok ())) ∧
    (∀ w : ℚ, Drivers.PM100D.setCorrectionWavelength w =
      ([Drivers.Visa.Ev.write s!"SENSE:CORRECTION:WAVELENGTH {w}"], Except.ok ())) := by
  refine ⟨?_, ?_, fun v => rfl, fun w => rfl⟩
  · intro dev cmd
    refine ⟨rfl, ?_, ?_, ?_⟩ <;>
      · simp only [Drivers.DP832.sendCmd]
        by_cases h32 : dev.esr &&& 32 = 0 <;> by_cases h16 : dev.esr &&& 16 = 0 <;>
          simp [h32, h16]
  · intro dev cmd
    refine ⟨rfl, ?_⟩
    simp only [Drivers.DS1000Z.writeCmd]
    by_cases h32 : dev.esr &&& 32 = 0 <;> by_cases h16 : dev.esr &&& 16 = 0 <;>
      simp [h32, h16]

/-- C3 failing-input evaluation: calling `Ell14.write('move_absolute', 45)`
(the `thorlabs/ellx` package's `Ell14`, address `'0'`, default
`rev_in_pulses = 143360`).  `degree_to_pulses` produces the 8-hex-digit
string `"00004600"` (17920 pulses), but the inherited `_write` from
`thorlabs/ellx/ellx.py` tests `isinstance(val_pulses, (int, float))`, which
is false for a `str`, so the byte string actually written is the bare
`b'0ma'` — the pulse count is silently dropped.  The fixed copy of `_write`
in `thorlabs/ell14/ellx.py` (`if val_pulses:`) appends it, yielding
`b'0ma00004600'` as the claim describes. -/
theorem Ell14_write_drops_move_value :
    Drivers.Ellx.degreeToPulses 143360 45 = .ok "00004600" ∧
    Drivers.Ellx.ell14Write 143360 Drivers.Ellx.defaultCommands "0" "move_absolute"
        (some 45) false [] =
      .ok ([Drivers.Ellx.SerEv.write "0ma"], some "0ma", none) ∧
    Drivers.Ellx.buildBytesTruthy "0" "ma" (.strV "00004600") =
      .ok "0ma00004600" := by
  have hq : (45 : ℚ) * (143360 : ℕ) / 360 = ((17920 : ℤ) : ℚ) := by
    push_cast
    norm_num
  have htr : Drivers.pyTrunc ((45 : ℚ) * (143360 : ℕ) / 360) = 17920 := by
    rw [hq]
    unfold Drivers.pyTrunc
    rw [if_pos (by norm_num), Int.floor_intCast]
  have hhex : Drivers.Ellx.toHex8 17920 = "00004600" := by decide
  have hdeg : Drivers.Ellx.degreeToPulses 143360 45 = .ok "00004600" := by
    unfold Drivers.Ellx.degreeToPulses Drivers.Ellx.packInt32
    rw [htr, if_pos (by norm_num), hhex]
  refine ⟨hdeg, ?_, rfl⟩
  simp only [Drivers.Ellx.ell14Write]
  rw [hdeg]
  rfl

/-- C4: for every command, the reply loop of `Ellx._write` reads lines one at
a time; it skips every line whose first three bytes are the address followed
by `'GS'` (a status line, unless that same prefix is the expected reply), and
returns the zero-padded hex payload of the first line whose first three bytes
are the address followed by the command's reply mnemonic; it yields the value
`None` exactly when no such decomposition of the reply stream exists — i.e.
when a line matching neither prefix (or the empty line a serial-port read
timeout produces) ends the read first. -/
theorem Ellx_readReply_parses (addr reply : String) (nRead : ℕ)
    (lines : List String) (v : String) :
    (Drivers.Ellx.readReply addr reply nRead lines).2 = some v ↔
      ∃ pre line rest, lines = pre ++ line :: rest ∧
        (∀ l ∈ pre, l.take 3 = addr ++ "GS" ∧ l.take 3 ≠ addr ++ reply) ∧
        line.take 3 = addr ++ reply ∧
        v = Drivers.Ellx.payload nRead line := by
  induction lines with
  | nil =>
    constructor
    · intro h
      simp [Drivers.Ellx.readReply] at h
    · rintro ⟨pre, line, rest, habs, -, -, -⟩
      exact absurd habs (by simp)
  | cons l ls ih =>
    rw [Drivers.Ellx.readReply]
    by_cases h1 : l.take 3 = addr ++ reply
    · rw [if_pos h1]
      constructor
      · intro hv
        exact ⟨[], l, ls, by simp, by simp, h1, (Option.some.inj hv).symm⟩
      · rintro ⟨pre, line, rest, heq, hpre, hline, hv⟩
        cases pre with
        | nil =>
          simp only [List.nil_append, List.cons.injEq] at heq
          obtain ⟨rfl, rfl⟩ := heq
          rw [hv]
        | cons p pre' =>
          simp only [List.cons_append, List.cons.injEq] at heq
          obtain ⟨rfl, -⟩ := heq
          exact absurd h1 (hpre l (List.mem_cons_self l pre')).2
    · rw [if_neg h1]
      by_cases h2 : l.take 3 = addr ++ "GS"
      · rw [if_pos h2]
        show (Drivers.Ellx.readReply addr reply nRead ls).2 = some v ↔ _
        rw [ih]
        constructor
        · rintro ⟨pre, line, rest, heq, hpre, hline, hv⟩
          refine ⟨l :: pre, line, rest, by rw [heq]; rfl, ?_, hline, hv⟩
          intro x hx
          rcases List.mem_cons.mp hx with rfl | hx'
          · exact ⟨h2, h1⟩
          · exact hpre x hx'
        · rintro ⟨pre, line, rest, heq, hpre, hline, hv⟩
          cases pre with
          | nil =>
            simp only [List.nil_append, List.cons.injEq] at heq
            obtain ⟨rfl, -⟩ := heq
            exact absurd hline h1
          | cons p pre' =>
            simp only [List.cons_append, List.cons.injEq] at heq
            obtain ⟨rfl, rfl⟩ := heq
            exact ⟨pre', line, rest, rfl,
              fun x hx => hpre x (List.mem_cons_of_mem l hx), hline, hv⟩
      · rw [if_neg h2]
        constructor
        · intro h
          simp at h
        · rintro ⟨pre, line, rest, heq, hpre, hline, hv⟩
          cases pre with
          | nil =>
            simp only [List.nil_append, List.cons.injEq] at heq
            obtain ⟨rfl, -⟩ := heq
            exact absurd hline h1
          | cons p pre' =>
            simp only [List.cons_append, List.cons.injEq] at heq
            obtain ⟨rfl, -⟩ := heq
            exact absurd (hpre l (List.mem_cons_self l pre')).1 h2

/-- C7 counterexample: for `CLD1010`, `__exit__` runs `self.off()` and then
`self.close()` with no try/finally; at the concrete input where `off()`
raises (a VISA error) and `close()` would succeed, `close` is never called —
the connection handle is not released on this exit path, refuting the claim
that every driver's context-manager exit releases the handle on all exit
paths including when an earlier step of `__exit__` raises. -/
theorem CLD1010_exit_skips_close :
    "close" ∉ (Drivers.CtxExit.cld1010Exit
      (.error Drivers.PyErr.visaErr) (.ok ())).1 := by
  decide

/-- C7 amended: `DP832.__exit__` is `self.close()` alone, so `close` is
called on every exit from the with-block (whatever its own outcome, and
Python runs `__exit__` even when the block body raises); `CLD1010.__exit__`
runs `off()` before `close()` without try/finally, so `close` is called if
and only if `off()` does not raise. -/
theorem exit_close_call_paths :
    (∀ closeR : Except Drivers.PyErr Unit,
      "close" ∈ (Drivers.CtxExit.dp832Exit closeR).1) ∧
    (∀ offR closeR : Except Drivers.PyErr Unit,
      ("close" ∈ (Drivers.CtxExit.cld1010Exit offR closeR).1 ↔ offR = .ok ())) := by
  constructor
  · intro closeR
    cases closeR with
    | ok a => simp [Drivers.CtxExit.dp832Exit, Drivers.CtxExit.runCalls]
    | error e => simp [Drivers.CtxExit.dp832Exit, Drivers.CtxExit.runCalls]
  · intro offR closeR
    cases offR with
    | ok a =>
      cases closeR with
      | ok b => simp [Drivers.CtxExit.cld1010Exit, Drivers.CtxExit.runCalls]
      | error e => simp [Drivers.CtxExit.cld1010Exit, Drivers.CtxExit.runCalls]
    | error e =>
      simp [Drivers.CtxExit.cld1010Exit, Drivers.CtxExit.runCalls]

/-- C8: `CLD1010.set_max_current(value)` raises `ValueError` before any
command is sent when `value` exceeds `max_diode_current` (no writes, device
state untouched); otherwise — provided the TEC-state query returns a truthy
(non-empty) reply string, as the device does in operation — the laser-diode
output state after the call equals the state before it: a lasing laser is
turned off, the limit written, and the laser turned back on, in that order,
while an off laser sees only the limit write and stays off. -/
theorem CLD1010_setMaxCurrent_preserves_ld (maxDiode value : ℚ)
    (st : Drivers.CLD1010.St) :
    (maxDiode < value →
      Drivers.CLD1010.setMaxCurrent maxDiode st value =
        ([], .error Drivers.PyErr.valueError)) ∧
    (value ≤ maxDiode → st.tecReply ≠ "" →
      ∃ st', (Drivers.CLD1010.setMaxCurrent maxDiode st value).2 = .ok st' ∧
        st'.ld = st.ld ∧ st'.limit = value ∧
        (Drivers.CLD1010.setMaxCurrent maxDiode st value).1 =
          (if st.ld then
            [Drivers.CLD1010.Cmd.ldOff, Drivers.CLD1010.Cmd.writeLimit value,
             Drivers.CLD1010.Cmd.ldOn]
          else [Drivers.CLD1010.Cmd.writeLimit value])) := by
  constructor
  · intro h
    simp [Drivers.CLD1010.setMaxCurrent, h]
  · intro hle htec
    have hnot : ¬ maxDiode < value := not_lt.mpr hle
    by_cases hld : st.ld = true
    · refine ⟨{ st with ld := true, limit := value }, ?_, ?_, rfl, ?_⟩
      · simp [Drivers.CLD1010.setMaxCurrent, hnot, Drivers.CLD1010.getLdState,
          hld, Drivers.CLD1010.offLd, Drivers.CLD1010.onLd, htec]
      · simp [hld]
      · simp [Drivers.CLD1010.setMaxCurrent, hnot, Drivers.CLD1010.getLdState,
          hld, Drivers.CLD1010.offLd, Drivers.CLD1010.onLd, htec]
    · have hld' : st.ld = false := by
        cases h : st.ld
        · rfl
        · exact absurd h hld
      refine ⟨{ st with limit := value }, ?_, rfl, rfl, ?_⟩
      · simp [Drivers.CLD1010.setMaxCurrent, hnot, Drivers.CLD1010.getLdState, hld']
      · simp [Drivers.CLD1010.setMaxCurrent, hnot, Drivers.CLD1010.getLdState, hld']

/-- Witness for C8: `max_diode_current = 2`, a lasing device with TEC reply
`"1"`; setting the limit to 1 succeeds and restores the lasing state, while
requesting 5 raises `ValueError` with no command sent. -/
theorem CLD1010_setMaxCurrent_preserves_ld_witness :
    (((1 : ℚ) ≤ 2 ∧
      (⟨true, "1", 0⟩ : Drivers.CLD1010.St).tecReply ≠ "") ∧ (2 : ℚ) < 5) ∧
    (∃ st', (Drivers.CLD1010.setMaxCurrent 2 ⟨true, "1", 0⟩ 1).2 = .ok st' ∧
      st'.ld = (⟨true, "1", 0⟩ : Drivers.CLD1010.St).ld ∧ st'.limit = 1 ∧
      (Drivers.CLD1010.setMaxCurrent 2 ⟨true, "1", 0⟩ 1).1 =
        (if (⟨true, "1", 0⟩ : Drivers.CLD1010.St).ld then
          [Drivers.CLD1010.Cmd.ldOff, Drivers.CLD1010.Cmd.writeLimit 1,
           Drivers.CLD1010.Cmd.ldOn]
        else [Drivers.CLD1010.Cmd.writeLimit 1])) ∧
    Drivers.CLD1010.setMaxCurrent 2 ⟨true, "1", 0⟩ 5 =
      ([], .error Drivers.PyErr.valueError) :=
  ⟨⟨⟨by norm_num, by decide⟩, by norm_num⟩,
   (CLD1010_setMaxCurrent_preserves_ld 2 1 ⟨true, "1", 0⟩).2
     (by norm_num) (by decide),
   (CLD1010_setMaxCurrent_preserves_ld 2 5 ⟨true, "1", 0⟩).1 (by norm_num)⟩

/-- C10: for every key not present in the commands dict, `Ellx._write`
returns `(None, None)` and performs no serial I/O at all — the event trace is
empty: no flush, no write, no read — for any value, read flag and available
reply lines. -/
theorem Ellx_write_unknown_key_no_io (cs : List (String × Drivers.Ellx.CmdSpec))
    (addr key : String) (v : Drivers.Ellx.PyVal) (rd : Bool)
    (lines : List String) (h : Drivers.Ellx.lookupCmd cs key = none) :
    Drivers.Ellx.ellxWrite cs addr key v rd lines = .ok ([], none, none) := by
  unfold Drivers.Ellx.ellxWrite
  rw [h]

/-- Witness for C10: the key `"foo"` is not in `default_commands`; `_write`
with a value, `read=True` and a pending reply line still does nothing. -/
theorem Ellx_write_unknown_key_no_io_witness :
    Drivers.Ellx.lookupCmd Drivers.Ellx.defaultCommands "foo" = none ∧
    Drivers.Ellx.ellxWrite Drivers.Ellx.defaultCommands "0" "foo"
      (.strV "00004600") true ["0PO00000000"] = .ok ([], none, none) :=
  ⟨by decide,
   Ellx_write_unknown_key_no_io Drivers.Ellx.defaultCommands "0" "foo"
     (.strV "00004600") true ["0PO00000000"] (by decide)⟩
